import Mathlib

/-!
Shallow embedding of the bevy_mesh application (src/main.rs): the cube-sphere
face-mesh generator (create_face_mesh), the settings application system
(apply_planet_settings) together with a model of Bevy's resource change
detection, and the pan-orbit camera controller (pan_orbit_camera,
reset_camera, and the UI reset button).

f32 arithmetic is modelled by exact real arithmetic.  An f32 division whose
divisor is zero produces a non-finite value (NaN or an infinity); such a
division is modelled by Option.none propagating through the computation.
-/

open scoped Classical

noncomputable section

/-- 2D vector (bevy/glam Vec2) with real components. -/
structure Vec2 where
  x : ℝ
  y : ℝ

instance : Zero Vec2 := ⟨⟨0, 0⟩⟩

instance : Add Vec2 := ⟨fun a b => ⟨a.x + b.x, a.y + b.y⟩⟩

instance : Neg Vec2 := ⟨fun a => ⟨-a.x, -a.y⟩⟩

/-- Vec2 times an f32 scalar (glam Mul of Vec2 by f32). -/
def Vec2.scale (v : Vec2) (c : ℝ) : Vec2 := ⟨v.x * c, v.y * c⟩

/-- 3D vector (bevy/glam Vec3) with real components. -/
structure Vec3 where
  x : ℝ
  y : ℝ
  z : ℝ

instance : Zero Vec3 := ⟨⟨0, 0, 0⟩⟩

instance : Add Vec3 := ⟨fun a b => ⟨a.x + b.x, a.y + b.y, a.z + b.z⟩⟩

instance : SMul ℝ Vec3 := ⟨fun c v => ⟨c * v.x, c * v.y, c * v.z⟩⟩

/-- Dot product (glam Vec3 dot). -/
def Vec3.dot (a b : Vec3) : ℝ := a.x * b.x + a.y * b.y + a.z * b.z

/-- Cross product (glam Vec3 cross). -/
def Vec3.cross (a b : Vec3) : Vec3 :=
  ⟨a.y * b.z - a.z * b.y, a.z * b.x - a.x * b.z, a.x * b.y - a.y * b.x⟩

/-- Vector length (glam Vec3 length = sqrt of self dot self). -/
def Vec3.length (v : Vec3) : ℝ := Real.sqrt (v.dot v)

/-- glam Vec3 normalize: self multiplied by the reciprocal of its length. -/
def Vec3.normalize (v : Vec3) : Vec3 := (1 / v.length) • v

/-- Vec3::Y. -/
def vY : Vec3 := ⟨0, 1, 0⟩

/-- Vec3::NEG_Y. -/
def vNegY : Vec3 := ⟨0, -1, 0⟩

/-- Vec3::NEG_X. -/
def vNegX : Vec3 := ⟨-1, 0, 0⟩

/-- Vec3::X. -/
def vX : Vec3 := ⟨1, 0, 0⟩

/-- Vec3::Z. -/
def vZ : Vec3 := ⟨0, 0, 1⟩

/-- Vec3::NEG_Z. -/
def vNegZ : Vec3 := ⟨0, 0, -1⟩

/-- The six face directions spawned in setup_planet (main.rs lines 86-93). -/
def directions : List Vec3 := [vY, vNegY, vNegX, vX, vZ, vNegZ]

/-! ## create_face_mesh (main.rs lines 134-182) -/

/-- axis_a = Vec3::new(normal.y, normal.z, normal.x) (main.rs line 135). -/
def axisA (n : Vec3) : Vec3 := ⟨n.y, n.z, n.x⟩

/-- axis_b = normal.cross(axis_a) (main.rs line 136). -/
def axisB (n : Vec3) : Vec3 := n.cross (axisA n)

/-- f32 division; none when the divisor is zero, in which case the f32 result
would be NaN or an infinity rather than a real number. -/
def fdiv (a b : ℝ) : Option ℝ := if b = 0 then none else some (a / b)

/-- One vertex of the face grid: percent, point_on_unit_cube and the spherify
branch (main.rs lines 148-160).  Returns (position, normal).  The u32
subtraction resolution - 1 is Nat subtraction; the enclosing loop only runs
when resolution is at least 1, where the two agree. -/
def faceVertex (r : ℕ) (normal : Vec3) (spherify : Bool) (x y : ℕ) :
    Option (Vec3 × Vec3) :=
  match fdiv (x : ℝ) ((r - 1 : ℕ) : ℝ), fdiv (y : ℝ) ((r - 1 : ℕ) : ℝ) with
  | some px, some py =>
    let p := normal + ((px - 1/2) * 2) • axisA normal + ((py - 1/2) * 2) • axisB normal
    some (if spherify then (p.normalize, p.normalize) else (p, normal))
  | _, _ => none

/-- The traversal order of the nested loops: for y in 0..r, for x in 0..r
(main.rs lines 145-146), as the flattened list of (x, y) pairs. -/
def grid (r : ℕ) : List (ℕ × ℕ) :=
  ((List.range r).map (fun y => (List.range r).map (fun x => (x, y)))).flatten

/-- The six indices pushed for grid cell (x, y) when x is not r - 1 and y is
not r - 1, with i = x + y * r (main.rs lines 162-170). -/
def cellIndices (r x y : ℕ) : List ℕ :=
  let i := x + y * r
  if x ≠ r - 1 ∧ y ≠ r - 1 then
    [i, i + r + 1, i + r, i, i + 1, i + r + 1]
  else []

/-- The vertex-building loop: positions and normals are pushed in grid order;
a non-finite vertex poisons the whole buffer. -/
def buildVertices (r : ℕ) (normal : Vec3) (spherify : Bool) :
    List (ℕ × ℕ) → Option (List (Vec3 × Vec3))
  | [] => some []
  | xy :: rest => do
    let v ← faceVertex r normal spherify xy.1 xy.2
    let vs ← buildVertices r normal spherify rest
    pure (v :: vs)

/-- The mesh produced for one face: parallel position and normal buffers plus
the triangle index buffer. -/
structure FaceMesh where
  positions : List Vec3
  normals : List Vec3
  indices : List ℕ

/-- create_face_mesh (main.rs lines 134-182).  none when the generation
performed an f32 division by zero (resolution = 1). -/
def create_face_mesh (resolution : ℕ) (normal : Vec3) (spherify : Bool) :
    Option FaceMesh :=
  (buildVertices resolution normal spherify (grid resolution)).map fun verts =>
    { positions := verts.map Prod.fst
      normals := verts.map Prod.snd
      indices := (grid resolution).flatMap fun xy => cellIndices resolution xy.1 xy.2 }

/-- The percent coordinate mapped to the cube: (t / (r - 1) - 0.5) * 2
(main.rs lines 148, 150-151). -/
def pc (r t : ℕ) : ℝ := ((t : ℝ) / ((r - 1 : ℕ) : ℝ) - 1/2) * 2

/-- point_on_unit_cube for grid coordinate (x, y) (main.rs lines 150-151),
written with total real division; agrees with faceVertex whenever r is at
least 2. -/
def facePoint (r : ℕ) (n : Vec3) (x y : ℕ) : Vec3 :=
  n + pc r x • axisA n + pc r y • axisB n

/-- The (position, normal) pair for grid coordinate (x, y), total version. -/
def faceVertexT (r : ℕ) (n : Vec3) (s : Bool) (x y : ℕ) : Vec3 × Vec3 :=
  if s then ((facePoint r n x y).normalize, (facePoint r n x y).normalize)
  else (facePoint r n x y, n)

/-- The mesh create_face_mesh produces when no division by zero occurs,
written with the total vertex function. -/
def faceMeshT (r : ℕ) (n : Vec3) (s : Bool) : FaceMesh :=
  { positions := (grid r).map fun xy => (faceVertexT r n s xy.1 xy.2).1
    normals := (grid r).map fun xy => (faceVertexT r n s xy.1 xy.2).2
    indices := (grid r).flatMap fun xy => cellIndices r xy.1 xy.2 }

/-- The largest absolute coordinate of a vector; a point lies on the surface
of the axis-aligned cube of half-extent c exactly when this equals c. -/
def maxAbsComponent (v : Vec3) : ℝ := max |v.x| (max |v.y| |v.z|)

/-- The eight corner points of the cube swept by the faces. -/
def cubeCorners : Set Vec3 :=
  {v : Vec3 | (v.x = 1 ∨ v.x = -1) ∧ (v.y = 1 ∨ v.y = -1) ∧ (v.z = 1 ∨ v.z = -1)}

/-- The union over the six faces of the grid-corner vertices of the generated
cube-mode meshes: position number x + y * r where both x and y are 0 or
r - 1. -/
def cornerVertexSet (r : ℕ) : Set Vec3 :=
  {p | ∃ n ∈ directions, ∃ m, create_face_mesh r n false = some m ∧
    ∃ x y : ℕ, (x = 0 ∨ x = r - 1) ∧ (y = 0 ∨ y = r - 1) ∧
      m.positions[x + y * r]? = some p}

/-! ## PlanetSettings and apply_planet_settings (main.rs lines 10-27, 107-131) -/

/-- An RGBA color. -/
structure Color where
  r : ℝ
  g : ℝ
  b : ℝ
  a : ℝ

/-- Resource PlanetSettings (main.rs lines 10-16). -/
structure PlanetSettings where
  resolution : ℕ
  spherify : Bool
  wireframe : Bool
  color : Color

/-- The mesh asset store Assets of Mesh.  add always allocates a fresh handle
id.  The payload is Option FaceMesh: none marks a mesh whose vertex data is
non-finite. -/
structure MeshAssets where
  next_id : ℕ
  store : ℕ → Option FaceMesh

/-- Assets::add (used at main.rs lines 99, 128): allocates a fresh handle. -/
def MeshAssets.add (a : MeshAssets) (m : Option FaceMesh) : ℕ × MeshAssets :=
  (a.next_id, ⟨a.next_id + 1, fun h => if h = a.next_id then m else a.store h⟩)

/-- The world state read and written by apply_planet_settings: the settings
resource with its change-detection flag, the global wireframe toggle, the
shared material color, the mesh assets, and the six face entities as pairs of
mesh handle and face normal. -/
structure PlanetWorld where
  settings : PlanetSettings
  settings_changed : Bool
  wireframe_global : Bool
  material_color : Color
  meshes : MeshAssets
  faces : List (ℕ × Vec3)

/-- A write to ResMut of PlanetSettings (as performed by ui_editor).  Bevy
marks the resource changed on any mutable dereference, without comparing the
old and new values. -/
def set_parameters (w : PlanetWorld) (s : PlanetSettings) : PlanetWorld :=
  { w with settings := s, settings_changed := true }

/-- The regeneration loop of apply_planet_settings (main.rs lines 126-129):
every face entity gets a freshly added mesh built from the current settings. -/
def regenFaces (r : ℕ) (sph : Bool) :
    List (ℕ × Vec3) → MeshAssets → List (ℕ × Vec3) × MeshAssets
  | [], a => ([], a)
  | f :: rest, a =>
    let ha := a.add (create_face_mesh r f.2 sph)
    let la := regenFaces r sph rest ha.2
    ((ha.1, f.2) :: la.1, la.2)

/-- apply_planet_settings (main.rs lines 108-131).  The guard is Bevy's
coarse settings.is_changed() flag; when it is set the system updates the
wireframe toggle and material color and regenerates all six face meshes.
Running the system consumes the change flag for the next tick. -/
def apply_planet_settings (w : PlanetWorld) : PlanetWorld :=
  if w.settings_changed then
    let fa := regenFaces w.settings.resolution w.settings.spherify w.faces w.meshes
    { w with
      settings_changed := false
      wireframe_global := w.settings.wireframe
      material_color := w.settings.color
      faces := fa.1
      meshes := fa.2 }
  else
    { w with settings_changed := false }

/-! ## Pan-orbit camera (main.rs lines 240-459) -/

/-- Mouse buttons used by the controller. -/
inductive MouseButton
  | left
  | right
  | middle
deriving DecidableEq

/-- MouseScrollUnit: line or pixel scrolling. -/
inductive MouseScrollUnit
  | line
  | pixel
deriving DecidableEq

/-- One MouseWheel event. -/
structure MouseWheel where
  unit : MouseScrollUnit
  x : ℝ
  y : ℝ

/-- ButtonInput of MouseButton: current pressed state and the
just-pressed-this-tick state. -/
structure ButtonInput where
  pressed : MouseButton → Bool
  just_pressed : MouseButton → Bool

/-- The egui context: whether the UI currently wants pointer or keyboard
input. -/
structure EguiCtx where
  wants_pointer_input : Bool
  wants_keyboard_input : Bool

/-- Everything pan_orbit_camera reads in one tick: the egui context (None
when contexts.ctx_mut() fails), the mouse buttons, the MouseMotion deltas and
the MouseWheel events of this tick. -/
structure CameraInput where
  ctx : Option EguiCtx
  mouse : ButtonInput
  motions : List Vec2
  scrolls : List MouseWheel

/-- PanOrbitAction (main.rs lines 286-291). -/
inductive PanOrbitAction
  | pan
  | orbit
  | zoom
deriving DecidableEq

/-- PanOrbitSettings (main.rs lines 273-284). -/
structure PanOrbitSettings where
  pan_sensitivity : ℝ
  orbit_sensitivity : ℝ
  zoom_sensitivity : ℝ
  pan_button : Option MouseButton
  orbit_button : Option MouseButton
  zoom_button : Option MouseButton
  scroll_action : Option PanOrbitAction
  scroll_line_sensitivity : ℝ
  scroll_pixel_sensitivity : ℝ

/-- PanOrbitState (main.rs lines 240-247). -/
structure PanOrbitState where
  center : Vec3
  radius : ℝ
  upside_down : Bool
  pitch : ℝ
  yaw : ℝ

/-- PanOrbitState::default_position (main.rs lines 261-271). -/
def default_position : PanOrbitState :=
  { center := ⟨0, 0, 0⟩, radius := 6, upside_down := false, pitch := 0, yaw := 0 }

/-- Quaternion with real components. -/
structure Quat where
  w : ℝ
  x : ℝ
  y : ℝ
  z : ℝ

/-- Hamilton product of quaternions. -/
def Quat.mul (p q : Quat) : Quat :=
  ⟨p.w * q.w - p.x * q.x - p.y * q.y - p.z * q.z,
   p.w * q.x + p.x * q.w + p.y * q.z - p.z * q.y,
   p.w * q.y - p.x * q.z + p.y * q.w + p.z * q.x,
   p.w * q.z + p.x * q.y - p.y * q.x + p.z * q.w⟩

/-- Rotation about the world Y axis by angle a, as a quaternion. -/
def quatRotY (a : ℝ) : Quat := ⟨Real.cos (a/2), 0, Real.sin (a/2), 0⟩

/-- Rotation about the world X axis by angle a, as a quaternion. -/
def quatRotX (a : ℝ) : Quat := ⟨Real.cos (a/2), Real.sin (a/2), 0, 0⟩

/-- Rotation about the world Z axis by angle a, as a quaternion. -/
def quatRotZ (a : ℝ) : Quat := ⟨Real.cos (a/2), 0, 0, Real.sin (a/2)⟩

/-- Quat::from_euler(EulerRot::YXZ, yaw, pitch, roll): yaw about Y, then
pitch about X, then roll about Z. -/
def quatFromEulerYXZ (yaw pitch roll : ℝ) : Quat :=
  (quatRotY yaw).mul ((quatRotX pitch).mul (quatRotZ roll))

/-- Rotating a vector by a unit quaternion (glam Mul of Quat by Vec3). -/
def Quat.rotate (q : Quat) (v : Vec3) : Vec3 :=
  let u : Vec3 := ⟨q.x, q.y, q.z⟩
  v + (2 * q.w) • (u.cross v) + (2 : ℝ) • (u.cross (u.cross v))

/-- The camera transform: rotation and translation. -/
structure Transform where
  rotation : Quat
  translation : Vec3

/-- Re-deriving the transform from the orbit state (main.rs lines 434-436,
identical code at 454-456 and 206-208): rotation from yaw then pitch with
zero roll, translation = center + rot * Vec3::Z * radius. -/
def publishTransform (st : PanOrbitState) : Transform :=
  let rot := quatFromEulerYXZ st.yaw st.pitch 0
  ⟨rot, st.center + st.radius • (rot.rotate vZ)⟩

/-- if let Ok(ctx) followed by ctx.wants_pointer_input() (main.rs 334-338):
a missing context never gates. -/
def ctxWantsPointer : Option EguiCtx → Bool
  | some c => c.wants_pointer_input
  | none => false

/-- if let Ok(ctx) followed by ctx.wants_keyboard_input() (main.rs 446-450). -/
def ctxWantsKeyboard : Option EguiCtx → Bool
  | some c => c.wants_keyboard_input
  | none => false

/-- settings.button.map(pressed).unwrap_or(false). -/
def pressedOpt (ob : Option MouseButton) (m : ButtonInput) : Bool :=
  match ob with
  | some b => m.pressed b
  | none => false

/-- settings.button.map(just_pressed).unwrap_or(false). -/
def justPressedOpt (ob : Option MouseButton) (m : ButtonInput) : Bool :=
  match ob with
  | some b => m.just_pressed b
  | none => false

/-- Sum of the tick's MouseMotion deltas with the y axis flipped
(main.rs lines 339-340). -/
def totalMotion (l : List Vec2) : Vec2 :=
  let s := l.foldl (fun a b => a + b) 0
  ⟨s.x, -s.y⟩

/-- Accumulated scroll of one unit type: x added, y subtracted
(main.rs lines 341-354). -/
def totalScroll (u : MouseScrollUnit) (evs : List MouseWheel) : Vec2 :=
  evs.foldl (fun acc ev => if ev.unit = u then ⟨acc.x + ev.x, acc.y - ev.y⟩ else acc) 0

/-- total_pan (main.rs lines 356-369). -/
def totalPanDelta (s : PanOrbitSettings) (m : ButtonInput) (tm tl tp : Vec2) : Vec2 :=
  (if pressedOpt s.pan_button m then -(tm.scale s.pan_sensitivity) else 0) +
  (if s.scroll_action = some PanOrbitAction.pan then
    -(tl.scale (s.scroll_line_sensitivity * s.pan_sensitivity)) +
    -(tp.scale (s.scroll_pixel_sensitivity * s.pan_sensitivity))
  else 0)

/-- total_orbit (main.rs lines 370-384). -/
def totalOrbitDelta (s : PanOrbitSettings) (m : ButtonInput) (tm tl tp : Vec2) : Vec2 :=
  (if pressedOpt s.orbit_button m then -(tm.scale s.orbit_sensitivity) else 0) +
  (if s.scroll_action = some PanOrbitAction.orbit then
    -(tl.scale (s.scroll_line_sensitivity * s.orbit_sensitivity)) +
    -(tp.scale (s.scroll_pixel_sensitivity * s.orbit_sensitivity))
  else 0)

/-- total_zoom (main.rs lines 385-398). -/
def totalZoomDelta (s : PanOrbitSettings) (m : ButtonInput) (tm tl tp : Vec2) : Vec2 :=
  (if pressedOpt s.zoom_button m then -(tm.scale s.zoom_sensitivity) else 0) +
  (if s.scroll_action = some PanOrbitAction.zoom then
    -(tl.scale (s.scroll_line_sensitivity * s.zoom_sensitivity)) +
    -(tp.scale (s.scroll_pixel_sensitivity * s.zoom_sensitivity))
  else 0)

/-- The tick's pan delta computed from the raw input. -/
def tickPan (inp : CameraInput) (s : PanOrbitSettings) : Vec2 :=
  totalPanDelta s inp.mouse (totalMotion inp.motions)
    (totalScroll MouseScrollUnit.line inp.scrolls)
    (totalScroll MouseScrollUnit.pixel inp.scrolls)

/-- The tick's orbit delta computed from the raw input. -/
def tickOrbit (inp : CameraInput) (s : PanOrbitSettings) : Vec2 :=
  totalOrbitDelta s inp.mouse (totalMotion inp.motions)
    (totalScroll MouseScrollUnit.line inp.scrolls)
    (totalScroll MouseScrollUnit.pixel inp.scrolls)

/-- The tick's zoom delta computed from the raw input. -/
def tickZoom (inp : CameraInput) (s : PanOrbitSettings) : Vec2 :=
  totalZoomDelta s inp.mouse (totalMotion inp.motions)
    (totalScroll MouseScrollUnit.line inp.scrolls)
    (totalScroll MouseScrollUnit.pixel inp.scrolls)

/-- The single-step yaw wrap (main.rs lines 418-423); TAU = 2 * pi. -/
def yawWrap (y : ℝ) : ℝ :=
  let y1 := if y > Real.pi then y - 2 * Real.pi else y
  if y1 < -Real.pi then y1 + 2 * Real.pi else y1

/-- The zoom branch (main.rs lines 400-403). -/
def zoomStep (tz : Vec2) (st : PanOrbitState) : PanOrbitState :=
  if tz = 0 then st else { st with radius := st.radius * Real.exp (-tz.y) }

/-- The orbit branch (main.rs lines 404-424): recompute upside_down on the
press transition from the current pitch, negate the horizontal component
while upside down, add the deltas, wrap yaw once. -/
def orbitStep (jp : Bool) (torb : Vec2) (st : PanOrbitState) : PanOrbitState :=
  if torb = 0 then st
  else
    let ud := if jp then
        (if st.pitch < -(Real.pi/2) ∨ st.pitch > Real.pi/2 then true else false)
      else st.upside_down
    let ox := if ud then -torb.x else torb.x
    { st with upside_down := ud, yaw := yawWrap (st.yaw + ox), pitch := st.pitch + torb.y }

/-- The pan branch (main.rs lines 425-432): move the center along the current
transform's right and up axes, scaled by the current radius. -/
def panStep (tpan : Vec2) (tr : Transform) (st : PanOrbitState) : PanOrbitState :=
  if tpan = 0 then st
  else
    { st with center := st.center + (tpan.x * st.radius) • (tr.rotation.rotate vX)
        + (tpan.y * st.radius) • (tr.rotation.rotate vY) }

/-- pan_orbit_camera (main.rs lines 327-439) for the single camera entity:
early return when the UI wants pointer input; otherwise apply zoom, orbit and
pan in order and republish the transform when any delta was nonzero. -/
def pan_orbit_camera (inp : CameraInput) (s : PanOrbitSettings)
    (st : PanOrbitState) (tr : Transform) : PanOrbitState × Transform :=
  if ctxWantsPointer inp.ctx then (st, tr)
  else
    let tpan := tickPan inp s
    let torb := tickOrbit inp s
    let tz := tickZoom inp s
    let st1 := zoomStep tz st
    let st2 := orbitStep (justPressedOpt s.orbit_button inp.mouse) torb st1
    let st3 := panStep tpan tr st2
    if tz ≠ 0 ∨ torb ≠ 0 ∨ tpan ≠ 0 then (st3, publishTransform st3) else (st3, tr)

/-- reset_camera (main.rs lines 441-459): gated on the UI wanting keyboard
input; on just-pressed R, replace the state wholesale with default_position
and re-derive the transform. -/
def reset_camera (ctx : Option EguiCtx) (rJustPressed : Bool)
    (st : PanOrbitState) (tr : Transform) : PanOrbitState × Transform :=
  if ctxWantsKeyboard ctx then (st, tr)
  else if rJustPressed then (default_position, publishTransform default_position)
  else (st, tr)

/-- The Reset Camera Now button in ui_editor (main.rs lines 203-210): on a
click, the same wholesale replacement and re-derivation. -/
def ui_reset_button (clicked : Bool) (st : PanOrbitState) (tr : Transform) :
    PanOrbitState × Transform :=
  if clicked then (default_position, publishTransform default_position) else (st, tr)

/-! ## Concrete scenario data used to exercise the systems -/

/-- A world with six face entities holding handles 0..5, change flag clear. -/
def w0C2 : PlanetWorld :=
  { settings := ⟨10, true, false, ⟨1/2, 1/2, 3/5, 1⟩⟩
    settings_changed := false
    wireframe_global := false
    material_color := ⟨1/2, 1/2, 3/5, 1⟩
    meshes := ⟨6, fun _ => none⟩
    faces := [(0, vY), (1, vNegY), (2, vNegX), (3, vX), (4, vZ), (5, vNegZ)] }

/-- Settings differing from w0C2 only in the color field. -/
def s1C2 : PlanetSettings := ⟨10, true, false, ⟨0, 0, 0, 1⟩⟩

/-- A tick where the UI wants keyboard (but not pointer) input while the
right mouse button is held and the pointer moves one unit right. -/
def inpC4 : CameraInput :=
  { ctx := some ⟨false, true⟩
    mouse := ⟨fun b => match b with | MouseButton.right => true | _ => false,
              fun _ => false⟩
    motions := [⟨1, 0⟩]
    scrolls := [] }

/-- Orbit on right mouse button with unit sensitivity; no pan, no zoom, no
scroll action. -/
def settingsC4 : PanOrbitSettings :=
  ⟨1, 1, 1, none, some MouseButton.right, none, none, 16, 1⟩

def stC4 : PanOrbitState := ⟨⟨0, 0, 0⟩, 1, false, 0, 0⟩

def trC4 : Transform := ⟨⟨1, 0, 0, 0⟩, ⟨0, 0, 0⟩⟩

/-- A tick where the UI wants pointer input. -/
def inpC4b : CameraInput :=
  { ctx := some ⟨true, false⟩
    mouse := ⟨fun _ => false, fun _ => false⟩
    motions := [⟨1, 0⟩]
    scrolls := [] }

/-- A tick with the right (orbit) button held, not just pressed, and a
motion of half a unit left, with no UI focus. -/
def inpC7 : CameraInput :=
  { ctx := none
    mouse := ⟨fun b => match b with | MouseButton.right => true | _ => false,
              fun _ => false⟩
    motions := [⟨-(1/2), 0⟩]
    scrolls := [] }

def settingsC7 : PanOrbitSettings :=
  ⟨1, 1, 1, none, some MouseButton.right, none, none, 16, 1⟩

/-- A state whose yaw 3.0 is close to pi. -/
def stC7 : PanOrbitState := ⟨⟨0, 0, 0⟩, 1, false, 0, 3⟩

def trC7 : Transform := ⟨⟨1, 0, 0, 0⟩, ⟨0, 0, 0⟩⟩

/-- A tick where the orbit button has just been pressed while the pitch
already exceeds pi/2, with a unit motion. -/
def inpC8 : CameraInput :=
  { ctx := none
    mouse := ⟨fun b => match b with | MouseButton.right => true | _ => false,
              fun b => match b with | MouseButton.right => true | _ => false⟩
    motions := [⟨1, 0⟩]
    scrolls := [] }

def settingsC8 : PanOrbitSettings :=
  ⟨1, 1, 1, none, some MouseButton.right, none, none, 16, 1⟩

def stC8 : PanOrbitState := ⟨⟨0, 0, 0⟩, 1, false, 2, 0⟩

def trC8 : Transform := ⟨⟨1, 0, 0, 0⟩, ⟨0, 0, 0⟩⟩

/-- An arbitrary scrambled camera state, as left by a sequence of pan, orbit
and zoom operations. -/
def stC9 : PanOrbitState := ⟨⟨1, 2, 3⟩, 5, true, 1, 1⟩

def trC9 : Transform := ⟨⟨1, 0, 0, 0⟩, ⟨0, 0, 0⟩⟩

/-- A tick with no input events and no buttons held. -/
def inpC10 : CameraInput :=
  { ctx := none
    mouse := ⟨fun _ => false, fun _ => false⟩
    motions := []
    scrolls := [] }

def settingsC10 : PanOrbitSettings :=
  ⟨1, 1, 1, none, some MouseButton.right, none, none, 16, 1⟩

def stC10 : PanOrbitState := ⟨⟨0, 0, 0⟩, 1, false, 0, 0⟩

def trC10 : Transform := ⟨⟨1, 0, 0, 0⟩, ⟨0, 0, 0⟩⟩

end

/-! ## Basic vector lemmas -/

lemma Vec2_zero_def : (0 : Vec2) = ⟨0, 0⟩ := rfl

lemma Vec2_add_def (a b : Vec2) : a + b = ⟨a.x + b.x, a.y + b.y⟩ := rfl

lemma Vec2_neg_def (a : Vec2) : -a = ⟨-a.x, -a.y⟩ := rfl

lemma Vec3_zero_def : (0 : Vec3) = ⟨0, 0, 0⟩ := rfl

lemma Vec3_add_def (a b : Vec3) : a + b = ⟨a.x + b.x, a.y + b.y, a.z + b.z⟩ := rfl

lemma Vec3_smul_def (c : ℝ) (v : Vec3) : c • v = ⟨c * v.x, c * v.y, c * v.z⟩ := rfl

/-! ## The closed form of create_face_mesh for valid resolutions -/

lemma fdiv_of_ne (a b : ℝ) (h : b ≠ 0) : fdiv a b = some (a / b) := by
  simp [fdiv, h]

lemma res_cast_ne_zero {r : ℕ} (h2 : 2 ≤ r) : ((r - 1 : ℕ) : ℝ) ≠ 0 := by
  have : r - 1 ≠ 0 := by omega
  exact_mod_cast this

lemma faceVertex_eq_some (r : ℕ) (n : Vec3) (s : Bool) (x y : ℕ)
    (h : ((r - 1 : ℕ) : ℝ) ≠ 0) :
    faceVertex r n s x y = some (faceVertexT r n s x y) := by
  rw [faceVertex, fdiv_of_ne _ _ h, fdiv_of_ne _ _ h]
  cases s <;> rfl

lemma buildVertices_eq_some (r : ℕ) (n : Vec3) (s : Bool) (l : List (ℕ × ℕ))
    (h : ((r - 1 : ℕ) : ℝ) ≠ 0) :
    buildVertices r n s l = some (l.map fun xy => faceVertexT r n s xy.1 xy.2) := by
  induction l with
  | nil => rfl
  | cons xy rest ih =>
    rw [buildVertices]
    rw [faceVertex_eq_some r n s xy.1 xy.2 h, ih]
    rfl

lemma create_face_mesh_eq (r : ℕ) (n : Vec3) (s : Bool) (h2 : 2 ≤ r) :
    create_face_mesh r n s = some (faceMeshT r n s) := by
  rw [create_face_mesh, buildVertices_eq_some r n s _ (res_cast_ne_zero h2)]
  simp [faceMeshT, List.map_map, Function.comp]

/-! ## Grid lemmas -/

lemma grid_length (r : ℕ) : (grid r).length = r * r := by
  rw [grid, List.length_flatten, List.map_map]
  have : (List.length ∘ fun y => (List.range r).map fun x => (x, y))
      = fun _ : ℕ => r := by
    funext y
    simp
  rw [this, List.map_const', List.sum_replicate, List.length_range, smul_eq_mul]

lemma mem_grid {r : ℕ} {xy : ℕ × ℕ} : xy ∈ grid r ↔ xy.1 < r ∧ xy.2 < r := by
  obtain ⟨a, b⟩ := xy
  simp only [grid, List.mem_flatten, List.mem_map]
  constructor
  · rintro ⟨l, ⟨y, hy, rfl⟩, hmem⟩
    simp only [List.mem_map, List.mem_range] at hmem hy
    obtain ⟨x, hx, hxy⟩ := hmem
    obtain ⟨rfl, rfl⟩ := Prod.mk.injEq .. ▸ hxy
    exact ⟨by simpa using hx, by simpa using hy⟩
  · rintro ⟨ha, hb⟩
    exact ⟨(List.range r).map fun x => (x, b),
      ⟨b, List.mem_range.mpr hb, rfl⟩,
      List.mem_map.mpr ⟨a, List.mem_range.mpr ha, rfl⟩⟩

lemma flatten_getElem?_chunks {α : Type} (w : ℕ) (L : List (List α)) :
    ∀ (i j : ℕ) (l : List α), (∀ t ∈ L, t.length = w) → j < w → L[i]? = some l →
      L.flatten[j + i * w]? = l[j]? := by
  induction L with
  | nil => intro i j l _ _ hl; simp at hl
  | cons c T ih =>
    intro i j l hw hj hl
    have hc : c.length = w := hw c (List.mem_cons_self _ _)
    cases i with
    | zero =>
      simp only [List.getElem?_cons_zero, Option.some.injEq] at hl
      subst hl
      rw [List.flatten_cons, Nat.zero_mul, Nat.add_zero,
        List.getElem?_append_left (by omega)]
    | succ i =>
      simp only [List.getElem?_cons_succ] at hl
      rw [List.flatten_cons, List.getElem?_append_right (by nlinarith [Nat.zero_le (j + i * w)])]
      have harith : j + (i + 1) * w - c.length = j + i * w := by
        rw [hc]; ring_nf; omega
      rw [harith]
      exact ih i j l (fun t ht => hw t (List.mem_cons_of_mem _ ht)) hj hl

lemma grid_getElem? {r x y : ℕ} (hx : x < r) (hy : y < r) :
    (grid r)[x + y * r]? = some (x, y) := by
  rw [grid]
  rw [flatten_getElem?_chunks r _ y x ((List.range r).map fun x0 => (x0, y))
    ?_ hx ?_]
  · rw [List.getElem?_map, List.getElem?_range hx]
    rfl
  · intro t ht
    simp only [List.mem_map] at ht
    obtain ⟨y0, _, rfl⟩ := ht
    simp
  · rw [List.getElem?_map, List.getElem?_range hy]
    rfl

/-! ## Claim C3: behaviour of create_face_mesh below resolution 2 -/

/-- C3 counterexample: at resolution 1, create_face_mesh does reach the
per-vertex division by resolution - 1 = 0; the single vertex is computed
as 0.0 / 0.0 (NaN), modelled by the whole generation returning none.  The
claim that the division-by-zero branch is never executed for resolution
less than 2 is therefore false at resolution 1. -/
theorem C3_counterexample : create_face_mesh 1 vY false = none := by
  have hg : grid 1 = [(0, 0)] := by rfl
  rw [create_face_mesh, hg]
  rw [show buildVertices 1 vY false [(0, 0)] = none from ?_]
  · rfl
  · rw [buildVertices]
    rw [show faceVertex 1 vY false 0 0 = none from ?_]
    · rfl
    · rw [faceVertex, show ((1 - 1 : ℕ) : ℝ) = 0 by norm_num]
      simp [fdiv]

/-- C3 (amended): create_face_mesh itself does not guard small resolutions.
At resolution 0 the loops never run, so no division happens and the mesh is
empty; at resolution 1 the per-vertex division by (resolution - 1) = 0 is
executed, producing non-finite (NaN) vertex data, modelled as none; for
every resolution of at least 2 the generation succeeds.  (In the running
program the ui_editor slider confines resolution to 2..=256, so the
division-by-zero case is unreachable from the UI.) -/
theorem C3_small_resolution (n : Vec3) (s : Bool) :
    create_face_mesh 0 n s = some ⟨[], [], []⟩ ∧
    create_face_mesh 1 n s = none ∧
    ∀ r : ℕ, 2 ≤ r → ∃ m, create_face_mesh r n s = some m := by
  refine ⟨by rfl, ?_, fun r hr => ⟨faceMeshT r n s, create_face_mesh_eq r n s hr⟩⟩
  have hg : grid 1 = [(0, 0)] := by rfl
  rw [create_face_mesh, hg]
  rw [show buildVertices 1 n s [(0, 0)] = none from ?_]
  · rfl
  · rw [buildVertices]
    rw [show faceVertex 1 n s 0 0 = none from ?_]
    · rfl
    · rw [faceVertex, show ((1 - 1 : ℕ) : ℝ) = 0 by norm_num]
      simp [fdiv]

theorem C3_small_resolution_witness :
    create_face_mesh 0 vY false = some ⟨[], [], []⟩ ∧
    create_face_mesh 1 vY false = none ∧
    ∃ m, create_face_mesh 2 vY false = some m :=
  ⟨(C3_small_resolution vY false).1, (C3_small_resolution vY false).2.1,
    (C3_small_resolution vY false).2.2 2 (by norm_num)⟩

/-! ## Claim C5: buffer sizes -/

lemma cellIndices_length (r x y : ℕ) :
    (cellIndices r x y).length = if x ≠ r - 1 ∧ y ≠ r - 1 then 6 else 0 := by
  rw [cellIndices]
  split <;> rfl

lemma sum_map_ite_ne (k v : ℕ) :
    ((List.range (k + 1)).map fun x => if x ≠ k then v else 0).sum = k * v := by
  rw [List.range_succ, List.map_append, List.sum_append]
  have h1 : (List.range k).map (fun x => if x ≠ k then v else 0)
      = (List.range k).map (fun _ => v) := by
    apply List.map_congr_left
    intro x hx
    rw [if_pos]
    rw [List.mem_range] at hx
    omega
  rw [h1, List.map_const', List.sum_replicate, List.length_range, smul_eq_mul]
  simp

lemma faceMeshT_indices_length (r : ℕ) (n : Vec3) (s : Bool) (h2 : 2 ≤ r) :
    (faceMeshT r n s).indices.length = 6 * (r - 1) * (r - 1) := by
  obtain ⟨k, rfl⟩ : ∃ k, r = k + 1 := ⟨r - 1, by omega⟩
  have hk : k + 1 - 1 = k := by omega
  have hrow : ∀ y : ℕ,
      ((List.range (k + 1)).map fun x => (cellIndices (k + 1) x y).length).sum
        = if y ≠ k then k * 6 else 0 := by
    intro y
    rcases eq_or_ne y k with hy | hy
    · rw [if_neg (by omega)]
      simp only [cellIndices_length, hk]
      rw [show ((List.range (k + 1)).map fun x =>
          if x ≠ k ∧ y ≠ k then 6 else 0) = (List.range (k + 1)).map fun _ => 0 from ?_]
      · simp [List.map_const', List.sum_replicate]
      · apply List.map_congr_left
        intro x _
        simp [hy]
    · rw [if_pos hy]
      rw [show ((List.range (k + 1)).map fun x => (cellIndices (k + 1) x y).length)
          = (List.range (k + 1)).map fun x => if x ≠ k then 6 else 0 from ?_]
      · exact sum_map_ite_ne k 6
      · apply List.map_congr_left
        intro x _
        rw [cellIndices_length, hk]
        simp [hy]
  have hmain : (faceMeshT (k + 1) n s).indices.length
      = ((List.range (k + 1)).map fun y =>
          ((List.range (k + 1)).map fun x => (cellIndices (k + 1) x y).length).sum).sum := by
    rw [faceMeshT]
    rw [List.length_flatMap, grid, List.map_flatten, List.sum_flatten,
      List.map_map, List.map_map]
    congr 1
    apply List.map_congr_left
    intro y _
    simp only [Function.comp_apply, List.map_map]
    rfl
  rw [hmain]
  rw [show ((List.range (k + 1)).map fun y =>
      ((List.range (k + 1)).map fun x => (cellIndices (k + 1) x y).length).sum)
      = (List.range (k + 1)).map fun y => if y ≠ k then k * 6 else 0 from
    List.map_congr_left fun y _ => hrow y]
  rw [sum_map_ite_ne k (k * 6), hk]
  ring

/-- C5: for every resolution of at least 2 and every face normal, with or
without spherification, create_face_mesh outputs exactly r * r positions,
exactly r * r normals (the parallel buffer), and exactly 6 * (r-1) * (r-1)
indices, that is 2 * (r-1) * (r-1) triangles. -/
theorem C5_grid_size (r : ℕ) (n : Vec3) (s : Bool) (h2 : 2 ≤ r) :
    ∀ m ∈ create_face_mesh r n s,
      m.positions.length = r * r ∧ m.normals.length = r * r ∧
      m.indices.length = 6 * (r - 1) * (r - 1) ∧
      m.indices.length = 3 * (2 * (r - 1) * (r - 1)) := by
  intro m hm
  rw [Option.mem_def, create_face_mesh_eq r n s h2, Option.some.injEq] at hm
  subst hm
  refine ⟨?_, ?_, faceMeshT_indices_length r n s h2, ?_⟩
  · rw [faceMeshT, List.length_map, grid_length]
  · rw [faceMeshT, List.length_map, grid_length]
  · rw [faceMeshT_indices_length r n s h2]
    ring

theorem C5_grid_size_witness :
    2 ≤ 3 ∧ ∀ m ∈ create_face_mesh 3 vY false,
      m.positions.length = 3 * 3 ∧ m.normals.length = 3 * 3 ∧
      m.indices.length = 6 * (3 - 1) * (3 - 1) ∧
      m.indices.length = 3 * (2 * (3 - 1) * (3 - 1)) :=
  ⟨by norm_num, C5_grid_size 3 vY false (by norm_num)⟩

/-! ## Per-face component forms of the cube points -/

lemma pc_zero (r : ℕ) : pc r 0 = -1 := by
  simp [pc]

lemma pc_last {r : ℕ} (h2 : 2 ≤ r) : pc r (r - 1) = 1 := by
  rw [pc, div_self (res_cast_ne_zero h2)]
  norm_num

lemma pc_abs_le {r t : ℕ} (h2 : 2 ≤ r) (ht : t ≤ r - 1) : |pc r t| ≤ 1 := by
  have hk : (0 : ℝ) < ((r - 1 : ℕ) : ℝ) := by
    have : 0 < r - 1 := by omega
    exact_mod_cast this
  have h0 : (0 : ℝ) ≤ (t : ℝ) / ((r - 1 : ℕ) : ℝ) := div_nonneg (by positivity) hk.le
  have h1 : (t : ℝ) / ((r - 1 : ℕ) : ℝ) ≤ 1 := by
    rw [div_le_one hk]
    exact_mod_cast ht
  rw [pc, abs_le]
  constructor <;> nlinarith

lemma facePoint_vY (r x y : ℕ) : facePoint r vY x y = ⟨pc r x, 1, -(pc r y)⟩ := by
  simp only [facePoint, vY, axisA, axisB, Vec3.cross, Vec3_add_def, Vec3_smul_def,
    Vec3.mk.injEq]
  norm_num

lemma facePoint_vNegY (r x y : ℕ) :
    facePoint r vNegY x y = ⟨-(pc r x), -1, -(pc r y)⟩ := by
  simp only [facePoint, vNegY, axisA, axisB, Vec3.cross, Vec3_add_def, Vec3_smul_def,
    Vec3.mk.injEq]
  norm_num

lemma facePoint_vNegX (r x y : ℕ) :
    facePoint r vNegX x y = ⟨-1, -(pc r y), -(pc r x)⟩ := by
  simp only [facePoint, vNegX, axisA, axisB, Vec3.cross, Vec3_add_def, Vec3_smul_def,
    Vec3.mk.injEq]
  norm_num

lemma facePoint_vX (r x y : ℕ) : facePoint r vX x y = ⟨1, -(pc r y), pc r x⟩ := by
  simp only [facePoint, vX, axisA, axisB, Vec3.cross, Vec3_add_def, Vec3_smul_def,
    Vec3.mk.injEq]
  norm_num

lemma facePoint_vZ (r x y : ℕ) : facePoint r vZ x y = ⟨-(pc r y), pc r x, 1⟩ := by
  simp only [facePoint, vZ, axisA, axisB, Vec3.cross, Vec3_add_def, Vec3_smul_def,
    Vec3.mk.injEq]
  norm_num

lemma facePoint_vNegZ (r x y : ℕ) :
    facePoint r vNegZ x y = ⟨-(pc r y), -(pc r x), -1⟩ := by
  simp only [facePoint, vNegZ, axisA, axisB, Vec3.cross, Vec3_add_def, Vec3_smul_def,
    Vec3.mk.injEq]
  norm_num

/-! ## Claim C1: the cube invariant -/

lemma maxAbsComponent_eq_one {v : Vec3} (hx : |v.x| ≤ 1) (hy : |v.y| ≤ 1)
    (hz : |v.z| ≤ 1) (h1 : |v.x| = 1 ∨ |v.y| = 1 ∨ |v.z| = 1) :
    maxAbsComponent v = 1 := by
  rw [maxAbsComponent]
  apply le_antisymm (max_le hx (max_le hy hz))
  rcases h1 with h | h | h
  · exact h ▸ le_max_left _ _
  · calc (1 : ℝ) = |v.y| := h.symm
    _ ≤ max |v.y| |v.z| := le_max_left _ _
    _ ≤ max |v.x| (max |v.y| |v.z|) := le_max_right _ _
  · calc (1 : ℝ) = |v.z| := h.symm
    _ ≤ max |v.y| |v.z| := le_max_right _ _
    _ ≤ max |v.x| (max |v.y| |v.z|) := le_max_right _ _

lemma cube_positions_eq (r : ℕ) (n : Vec3) :
    (faceMeshT r n false).positions = (grid r).map fun xy => facePoint r n xy.1 xy.2 := by
  simp [faceMeshT, faceVertexT]

lemma cube_normals_eq (r : ℕ) (n : Vec3) :
    (faceMeshT r n false).normals = (grid r).map fun _ => n := by
  simp [faceMeshT, faceVertexT]

lemma facePoint_maxAbs (r : ℕ) (n : Vec3) (x y : ℕ) (h2 : 2 ≤ r)
    (hn : n ∈ directions) (hx : x < r) (hy : y < r) :
    maxAbsComponent (facePoint r n x y) = 1 := by
  have hax : |pc r x| ≤ 1 := pc_abs_le h2 (by omega)
  have hay : |pc r y| ≤ 1 := pc_abs_le h2 (by omega)
  simp only [directions, List.mem_cons, List.not_mem_nil, or_false] at hn
  rcases hn with rfl | rfl | rfl | rfl | rfl | rfl
  · rw [facePoint_vY]
    exact maxAbsComponent_eq_one (by simpa using hax) (by norm_num)
      (by simpa [abs_neg] using hay) (Or.inr (Or.inl (by norm_num)))
  · rw [facePoint_vNegY]
    exact maxAbsComponent_eq_one (by simpa [abs_neg] using hax) (by norm_num)
      (by simpa [abs_neg] using hay) (Or.inr (Or.inl (by norm_num)))
  · rw [facePoint_vNegX]
    exact maxAbsComponent_eq_one (by norm_num) (by simpa [abs_neg] using hay)
      (by simpa [abs_neg] using hax) (Or.inl (by norm_num))
  · rw [facePoint_vX]
    exact maxAbsComponent_eq_one (by norm_num) (by simpa [abs_neg] using hay)
      (by simpa using hax) (Or.inl (by norm_num))
  · rw [facePoint_vZ]
    exact maxAbsComponent_eq_one (by simpa [abs_neg] using hay) (by simpa using hax)
      (by norm_num) (Or.inr (Or.inr (by norm_num)))
  · rw [facePoint_vNegZ]
    exact maxAbsComponent_eq_one (by simpa [abs_neg] using hay)
      (by simpa [abs_neg] using hax) (by norm_num) (Or.inr (Or.inr (by norm_num)))

lemma faceMeshT_positions_getElem (r : ℕ) (n : Vec3) {x y : ℕ}
    (hx : x < r) (hy : y < r) :
    (faceMeshT r n false).positions[x + y * r]? = some (facePoint r n x y) := by
  rw [cube_positions_eq, List.getElem?_map, grid_getElem? hx hy]
  rfl

lemma corner_mem (r : ℕ) (h2 : 2 ≤ r) (n : Vec3) (hn : n ∈ directions)
    (x y : ℕ) (hx : x = 0 ∨ x = r - 1) (hy : y = 0 ∨ y = r - 1) :
    facePoint r n x y ∈ cornerVertexSet r := by
  have hx' : x < r := by rcases hx with rfl | rfl <;> omega
  have hy' : y < r := by rcases hy with rfl | rfl <;> omega
  exact ⟨n, hn, faceMeshT r n false, create_face_mesh_eq r n false h2, x, y, hx, hy,
    faceMeshT_positions_getElem r n hx' hy'⟩

lemma corner_subset (r : ℕ) (h2 : 2 ≤ r) : cornerVertexSet r ⊆ cubeCorners := by
  rintro p ⟨n, hn, m, hm, x, y, hx, hy, hp⟩
  rw [create_face_mesh_eq r n false h2, Option.some.injEq] at hm
  subst hm
  have hx' : x < r := by rcases hx with rfl | rfl <;> omega
  have hy' : y < r := by rcases hy with rfl | rfl <;> omega
  rw [faceMeshT_positions_getElem r n hx' hy', Option.some.injEq] at hp
  subst hp
  have hpx : pc r x = -1 ∨ pc r x = 1 := by
    rcases hx with rfl | rfl
    · exact Or.inl (pc_zero r)
    · exact Or.inr (pc_last h2)
  have hpy : pc r y = -1 ∨ pc r y = 1 := by
    rcases hy with rfl | rfl
    · exact Or.inl (pc_zero r)
    · exact Or.inr (pc_last h2)
  simp only [directions, List.mem_cons, List.not_mem_nil, or_false] at hn
  rcases hn with rfl | rfl | rfl | rfl | rfl | rfl
  · rw [facePoint_vY]
    rcases hpx with h1 | h1 <;> rcases hpy with h2' | h2' <;>
      simp [cubeCorners, h1, h2']
  · rw [facePoint_vNegY]
    rcases hpx with h1 | h1 <;> rcases hpy with h2' | h2' <;>
      simp [cubeCorners, h1, h2']
  · rw [facePoint_vNegX]
    rcases hpx with h1 | h1 <;> rcases hpy with h2' | h2' <;>
      simp [cubeCorners, h1, h2']
  · rw [facePoint_vX]
    rcases hpx with h1 | h1 <;> rcases hpy with h2' | h2' <;>
      simp [cubeCorners, h1, h2']
  · rw [facePoint_vZ]
    rcases hpx with h1 | h1 <;> rcases hpy with h2' | h2' <;>
      simp [cubeCorners, h1, h2']
  · rw [facePoint_vNegZ]
    rcases hpx with h1 | h1 <;> rcases hpy with h2' | h2' <;>
      simp [cubeCorners, h1, h2']

lemma corner_superset (r : ℕ) (h2 : 2 ≤ r) : cubeCorners ⊆ cornerVertexSet r := by
  intro p hp
  obtain ⟨hx, hy, hz⟩ := hp
  obtain ⟨px, py, pz⟩ := p
  simp only at hx hy hz
  rcases hy with hy | hy
  · subst hy
    rcases hx with hx | hx <;> subst hx <;> rcases hz with hz | hz <;> subst hz
    · have := corner_mem r h2 vY (by simp [directions]) (r - 1) 0
        (Or.inr rfl) (Or.inl rfl)
      rw [facePoint_vY, pc_last h2, pc_zero] at this
      norm_num at this
      exact this
    · have := corner_mem r h2 vY (by simp [directions]) (r - 1) (r - 1)
        (Or.inr rfl) (Or.inr rfl)
      rw [facePoint_vY, pc_last h2] at this
      exact this
    · have := corner_mem r h2 vY (by simp [directions]) 0 0
        (Or.inl rfl) (Or.inl rfl)
      rw [facePoint_vY, pc_zero] at this
      norm_num at this
      exact this
    · have := corner_mem r h2 vY (by simp [directions]) 0 (r - 1)
        (Or.inl rfl) (Or.inr rfl)
      rw [facePoint_vY, pc_zero, pc_last h2] at this
      exact this
  · subst hy
    rcases hx with hx | hx <;> subst hx <;> rcases hz with hz | hz <;> subst hz
    · have := corner_mem r h2 vNegY (by simp [directions]) 0 0
        (Or.inl rfl) (Or.inl rfl)
      rw [facePoint_vNegY, pc_zero] at this
      norm_num at this
      exact this
    · have := corner_mem r h2 vNegY (by simp [directions]) 0 (r - 1)
        (Or.inl rfl) (Or.inr rfl)
      rw [facePoint_vNegY, pc_zero, pc_last h2] at this
      norm_num at this
      exact this
    · have := corner_mem r h2 vNegY (by simp [directions]) (r - 1) 0
        (Or.inr rfl) (Or.inl rfl)
      rw [facePoint_vNegY, pc_last h2, pc_zero] at this
      norm_num at this
      exact this
    · have := corner_mem r h2 vNegY (by simp [directions]) (r - 1) (r - 1)
        (Or.inr rfl) (Or.inr rfl)
      rw [facePoint_vNegY, pc_last h2] at this
      exact this

/-- C1 counterexample: at resolution 2 on the +Y face in cube mode, the very
first output position is (-1, 1, 1), whose largest absolute component is 1
and not 0.5 as the claim states; the generated cube has half-extent 1. -/
theorem C1_counterexample :
    ∃ m, create_face_mesh 2 vY false = some m ∧
      ∃ p ∈ m.positions, maxAbsComponent p ≠ (1/2 : ℝ) := by
  refine ⟨faceMeshT 2 vY false, create_face_mesh_eq 2 vY false (by norm_num),
    facePoint 2 vY 0 0, ?_, ?_⟩
  · rw [cube_positions_eq, List.mem_map]
    exact ⟨(0, 0), mem_grid.mpr ⟨by norm_num, by norm_num⟩, rfl⟩
  · rw [facePoint_vY, pc_zero, maxAbsComponent]
    norm_num

/-- C1 (amended): for every resolution of at least 2 and every canonical face
normal, in cube mode (spherify = false) every output position lies on the
surface of the axis-aligned cube of half-extent 1 (its maximum absolute
component equals 1, not 0.5), every output normal equals the face's fixed
normal, and the union over the six faces of the grid-corner vertices equals
exactly the eight points with all coordinates plus or minus 1. -/
theorem C1_cube_invariant (r : ℕ) (h2 : 2 ≤ r) :
    (∀ n ∈ directions, ∀ m ∈ create_face_mesh r n false,
      (∀ p ∈ m.positions, maxAbsComponent p = 1) ∧ (∀ v ∈ m.normals, v = n)) ∧
    cornerVertexSet r = cubeCorners := by
  constructor
  · intro n hn m hm
    rw [Option.mem_def, create_face_mesh_eq r n false h2, Option.some.injEq] at hm
    subst hm
    constructor
    · intro p hp
      rw [cube_positions_eq, List.mem_map] at hp
      obtain ⟨xy, hxy, rfl⟩ := hp
      rw [mem_grid] at hxy
      exact facePoint_maxAbs r n xy.1 xy.2 h2 hn hxy.1 hxy.2
    · intro v hv
      rw [cube_normals_eq, List.mem_map] at hv
      obtain ⟨xy, _, rfl⟩ := hv
      rfl
  · exact Set.Subset.antisymm (corner_subset r h2) (corner_superset r h2)

theorem C1_cube_invariant_witness :
    2 ≤ 2 ∧
    ((∀ n ∈ directions, ∀ m ∈ create_face_mesh 2 n false,
      (∀ p ∈ m.positions, maxAbsComponent p = 1) ∧ (∀ v ∈ m.normals, v = n)) ∧
    cornerVertexSet 2 = cubeCorners) :=
  ⟨by norm_num, C1_cube_invariant 2 (by norm_num)⟩

/-! ## Claim C6: the spherify invariant -/

lemma Vec3.normalize_length_eq_one {v : Vec3} (h : 0 < v.dot v) :
    v.normalize.length = 1 := by
  have hsq : Real.sqrt (v.dot v) ^ 2 = v.dot v := Real.sq_sqrt h.le
  have hdot : v.normalize.dot v.normalize = 1 := by
    have hexp : v.normalize.dot v.normalize
        = (1 / Real.sqrt (v.dot v)) ^ 2 * (v.dot v) := by
      simp only [Vec3.normalize, Vec3.length, Vec3_smul_def, Vec3.dot]
      ring
    rw [hexp, one_div, inv_pow, hsq, inv_mul_cancel₀ h.ne']
  rw [Vec3.length, hdot, Real.sqrt_one]

lemma facePoint_dot_self_pos (r : ℕ) (n : Vec3) (x y : ℕ) (hn : n ∈ directions) :
    0 < (facePoint r n x y).dot (facePoint r n x y) := by
  simp only [directions, List.mem_cons, List.not_mem_nil, or_false] at hn
  rcases hn with rfl | rfl | rfl | rfl | rfl | rfl
  · rw [facePoint_vY]
    simp only [Vec3.dot]
    nlinarith [mul_self_nonneg (pc r x), mul_self_nonneg (pc r y)]
  · rw [facePoint_vNegY]
    simp only [Vec3.dot]
    nlinarith [mul_self_nonneg (pc r x), mul_self_nonneg (pc r y)]
  · rw [facePoint_vNegX]
    simp only [Vec3.dot]
    nlinarith [mul_self_nonneg (pc r x), mul_self_nonneg (pc r y)]
  · rw [facePoint_vX]
    simp only [Vec3.dot]
    nlinarith [mul_self_nonneg (pc r x), mul_self_nonneg (pc r y)]
  · rw [facePoint_vZ]
    simp only [Vec3.dot]
    nlinarith [mul_self_nonneg (pc r x), mul_self_nonneg (pc r y)]
  · rw [facePoint_vNegZ]
    simp only [Vec3.dot]
    nlinarith [mul_self_nonneg (pc r x), mul_self_nonneg (pc r y)]

/-- C6: for every resolution of at least 2 and every canonical (unit) face
normal, with spherify = true every output position is the normalization of
the corresponding cube point, every position has exactly unit length (the
floating-point tolerance of the claim is exact in real arithmetic), and the
normal buffer coincides with the position buffer. -/
theorem C6_spherify_invariant (r : ℕ) (n : Vec3) (h2 : 2 ≤ r)
    (hn : n ∈ directions) :
    ∀ m ∈ create_face_mesh r n true,
      m.positions = (grid r).map (fun xy => (facePoint r n xy.1 xy.2).normalize) ∧
      m.normals = m.positions ∧
      ∀ p ∈ m.positions, p.length = 1 := by
  intro m hm
  rw [Option.mem_def, create_face_mesh_eq r n true h2, Option.some.injEq] at hm
  subst hm
  have hpos : (faceMeshT r n true).positions
      = (grid r).map fun xy => (facePoint r n xy.1 xy.2).normalize := by
    simp [faceMeshT, faceVertexT]
  refine ⟨hpos, by simp [faceMeshT, faceVertexT], ?_⟩
  intro p hp
  rw [hpos, List.mem_map] at hp
  obtain ⟨xy, _, rfl⟩ := hp
  exact Vec3.normalize_length_eq_one (facePoint_dot_self_pos r n xy.1 xy.2 hn)

theorem C6_spherify_invariant_witness :
    2 ≤ 2 ∧ vY ∈ directions ∧
    ∀ m ∈ create_face_mesh 2 vY true,
      m.positions = (grid 2).map (fun xy => (facePoint 2 vY xy.1 xy.2).normalize) ∧
      m.normals = m.positions ∧
      ∀ p ∈ m.positions, p.length = 1 :=
  ⟨by norm_num, by simp [directions],
    C6_spherify_invariant 2 vY (by norm_num) (by simp [directions])⟩

/-! ## Camera controller lemmas -/

lemma yawWrap_of_mem (y : ℝ) (h1 : -Real.pi ≤ y) (h2 : y ≤ Real.pi) :
    yawWrap y = y := by
  simp only [yawWrap]
  rw [if_neg (not_lt.mpr h2), if_neg (not_lt.mpr h1)]

lemma yawWrap_of_gt (y : ℝ) (h1 : Real.pi < y) :
    yawWrap y = y - 2 * Real.pi := by
  simp only [yawWrap]
  rw [if_pos h1, if_neg (show ¬(y - 2 * Real.pi < -Real.pi) by push_neg; linarith)]

lemma yawWrap_of_lt (y : ℝ) (h1 : y < -Real.pi) :
    yawWrap y = y + 2 * Real.pi := by
  have hpi := Real.pi_pos
  simp only [yawWrap]
  rw [if_neg (show ¬(Real.pi < y) by linarith), if_pos h1]

lemma zoomStep_center (tz : Vec2) (st : PanOrbitState) :
    (zoomStep tz st).center = st.center := by
  rw [zoomStep]; split <;> rfl

lemma zoomStep_pitch (tz : Vec2) (st : PanOrbitState) :
    (zoomStep tz st).pitch = st.pitch := by
  rw [zoomStep]; split <;> rfl

lemma zoomStep_yaw (tz : Vec2) (st : PanOrbitState) :
    (zoomStep tz st).yaw = st.yaw := by
  rw [zoomStep]; split <;> rfl

lemma zoomStep_upside_down (tz : Vec2) (st : PanOrbitState) :
    (zoomStep tz st).upside_down = st.upside_down := by
  rw [zoomStep]; split <;> rfl

lemma orbitStep_radius (jp : Bool) (torb : Vec2) (st : PanOrbitState) :
    (orbitStep jp torb st).radius = st.radius := by
  rw [orbitStep]; split <;> rfl

lemma panStep_radius (tpan : Vec2) (tr : Transform) (st : PanOrbitState) :
    (panStep tpan tr st).radius = st.radius := by
  rw [panStep]; split <;> rfl

lemma panStep_yaw (tpan : Vec2) (tr : Transform) (st : PanOrbitState) :
    (panStep tpan tr st).yaw = st.yaw := by
  rw [panStep]; split <;> rfl

lemma panStep_pitch (tpan : Vec2) (tr : Transform) (st : PanOrbitState) :
    (panStep tpan tr st).pitch = st.pitch := by
  rw [panStep]; split <;> rfl

lemma panStep_upside_down (tpan : Vec2) (tr : Transform) (st : PanOrbitState) :
    (panStep tpan tr st).upside_down = st.upside_down := by
  rw [panStep]; split <;> rfl

lemma fst_ite_pair {α β : Type} (c : Prop) [Decidable c] (x : α) (u v : β) :
    (if c then (x, u) else (x, v)).1 = x := by
  split <;> rfl

lemma pan_orbit_camera_fst (inp : CameraInput) (s : PanOrbitSettings)
    (st : PanOrbitState) (tr : Transform) (hg : ctxWantsPointer inp.ctx = false) :
    (pan_orbit_camera inp s st tr).1
      = panStep (tickPan inp s) tr
          (orbitStep (justPressedOpt s.orbit_button inp.mouse) (tickOrbit inp s)
            (zoomStep (tickZoom inp s) st)) := by
  rw [pan_orbit_camera, if_neg (by simp [hg])]
  exact fst_ite_pair _ _ _ _

/-! ## Claim C4: UI focus gating of the camera -/

/-- C4 counterexample: on a tick where the UI claims keyboard focus but not
pointer focus, pan_orbit_camera still mutates the orbit state (here the yaw
moves from 0 to -1 under a held orbit button and a unit pointer motion), so
the claim that keyboard focus suppresses camera input is false. -/
theorem C4_counterexample :
    ctxWantsKeyboard inpC4.ctx = true ∧ ctxWantsPointer inpC4.ctx = false ∧
    (pan_orbit_camera inpC4 settingsC4 stC4 trC4).1.yaw = -1 ∧
    (pan_orbit_camera inpC4 settingsC4 stC4 trC4).1.yaw ≠ stC4.yaw := by
  have hpi := Real.pi_gt_three
  have horb : tickOrbit inpC4 settingsC4 = ⟨-1, 0⟩ := by
    simp only [tickOrbit, totalOrbitDelta, inpC4, settingsC4, pressedOpt,
      totalMotion, totalScroll, Vec2.scale, Vec2_neg_def, Vec2_add_def,
      Vec2_zero_def, List.foldl]
    norm_num
  have hne : (⟨-1, 0⟩ : Vec2) ≠ 0 := by
    rw [Ne, Vec2_zero_def, Vec2.mk.injEq]
    norm_num
  have hyaw : (pan_orbit_camera inpC4 settingsC4 stC4 trC4).1.yaw = -1 := by
    rw [pan_orbit_camera_fst inpC4 settingsC4 stC4 trC4 rfl, panStep_yaw, horb]
    rw [show justPressedOpt settingsC4.orbit_button inpC4.mouse = false from rfl]
    rw [orbitStep, if_neg hne]
    simp only [Bool.false_eq_true, if_false]
    rw [zoomStep_yaw, zoomStep_upside_down]
    rw [show stC4.upside_down = false from rfl, show stC4.yaw = (0 : ℝ) from rfl]
    simp only [Bool.false_eq_true, if_false]
    rw [show (0 : ℝ) + (-1 : ℝ) = -1 by norm_num]
    exact yawWrap_of_mem (-1) (by linarith) (by linarith)
  exact ⟨rfl, rfl, hyaw, by rw [hyaw]; norm_num [stC4]⟩

/-- C4 (amended): only pointer focus gates the camera: on every tick where
the UI collaborator claims pointer focus, pan_orbit_camera performs no state
mutation at all (orbit state and published transform are returned untouched,
regardless of motion, scroll or button input).  Keyboard focus alone does not
suppress pan_orbit_camera; it gates only reset_camera. -/
theorem C4_pointer_gating (inp : CameraInput) (s : PanOrbitSettings)
    (st : PanOrbitState) (tr : Transform) (h : ctxWantsPointer inp.ctx = true) :
    pan_orbit_camera inp s st tr = (st, tr) ∧
    ∀ ctx2 st2 tr2, ctxWantsKeyboard ctx2 = true →
      reset_camera ctx2 true st2 tr2 = (st2, tr2) := by
  constructor
  · rw [pan_orbit_camera, if_pos (by simp [h])]
  · intro ctx2 st2 tr2 hk
    rw [reset_camera, if_pos (by simp [hk])]

theorem C4_pointer_gating_witness :
    ctxWantsPointer inpC4b.ctx = true ∧
    (pan_orbit_camera inpC4b settingsC4 stC4 trC4 = (stC4, trC4) ∧
    ∀ ctx2 st2 tr2, ctxWantsKeyboard ctx2 = true →
      reset_camera ctx2 true st2 tr2 = (st2, tr2)) :=
  ⟨rfl, C4_pointer_gating inpC4b settingsC4 stC4 trC4 rfl⟩

/-! ## Claim C7: the single-step yaw wrap -/

lemma orbitStep_not_pressed (torb : Vec2) (st : PanOrbitState) (hne : torb ≠ 0)
    (hud : st.upside_down = false) :
    orbitStep false torb st
      = { st with yaw := yawWrap (st.yaw + torb.x), pitch := st.pitch + torb.y } := by
  rw [orbitStep, if_neg hne]
  simp [hud]

/-- C7: on every tick applying a nonzero orbit delta the new yaw is the old
yaw plus the (possibly negated) horizontal component, wrapped by a single
subtraction or addition of 2 pi: whenever the sum overflows pi (by at most
2 pi, the per-tick bound) one subtraction lands it in (-pi, pi], whenever it
underflows -pi one addition does; concretely, starting from yaw = 3.0 an
orbit delta of +0.5 runs through pan_orbit_camera to yaw = 3.5 - 2 pi. -/
theorem C7_yaw_wrap (y dx : ℝ) (hy1 : -Real.pi < y) (hy2 : y ≤ Real.pi)
    (hdx : |dx| ≤ 2 * Real.pi) :
    (Real.pi < y + dx →
      yawWrap (y + dx) = y + dx - 2 * Real.pi ∧
      -Real.pi < y + dx - 2 * Real.pi ∧ y + dx - 2 * Real.pi ≤ Real.pi) ∧
    (y + dx < -Real.pi →
      yawWrap (y + dx) = y + dx + 2 * Real.pi ∧
      -Real.pi < y + dx + 2 * Real.pi ∧ y + dx + 2 * Real.pi ≤ Real.pi) ∧
    (∀ (jp : Bool) (torb : Vec2) (st : PanOrbitState), torb ≠ 0 →
      (orbitStep jp torb st).yaw
        = yawWrap (st.yaw +
            (if (orbitStep jp torb st).upside_down then -torb.x else torb.x))) ∧
    (pan_orbit_camera inpC7 settingsC7 stC7 trC7).1.yaw = 3.5 - 2 * Real.pi := by
  obtain ⟨hd1, hd2⟩ := abs_le.mp hdx
  refine ⟨?_, ?_, ?_, ?_⟩
  · intro h
    exact ⟨yawWrap_of_gt _ h, by linarith, by linarith⟩
  · intro h
    exact ⟨yawWrap_of_lt _ h, by linarith, by linarith⟩
  · intro jp torb st h
    rw [orbitStep, if_neg h]
  · have horb : tickOrbit inpC7 settingsC7 = ⟨1/2, 0⟩ := by
      simp only [tickOrbit, totalOrbitDelta, inpC7, settingsC7, pressedOpt,
        totalMotion, totalScroll, Vec2.scale, Vec2_neg_def, Vec2_add_def,
        Vec2_zero_def, List.foldl]
      norm_num
    have hne : (⟨1/2, 0⟩ : Vec2) ≠ 0 := by
      rw [Ne, Vec2_zero_def, Vec2.mk.injEq]
      norm_num
    rw [pan_orbit_camera_fst inpC7 settingsC7 stC7 trC7 rfl, panStep_yaw, horb]
    rw [show justPressedOpt settingsC7.orbit_button inpC7.mouse = false from rfl]
    rw [orbitStep, if_neg hne]
    simp only [Bool.false_eq_true, if_false]
    rw [zoomStep_yaw, zoomStep_upside_down]
    rw [show stC7.upside_down = false from rfl, show stC7.yaw = (3 : ℝ) from rfl]
    simp only [Bool.false_eq_true, if_false]
    rw [show (3 : ℝ) + (⟨1/2, 0⟩ : Vec2).x = 3.5 by norm_num]
    rw [yawWrap_of_gt 3.5 (by linarith [Real.pi_lt_d2])]

theorem C7_yaw_wrap_witness :
    (Real.pi < 3 + 1/2 →
      yawWrap (3 + 1/2) = 3 + 1/2 - 2 * Real.pi ∧
      -Real.pi < 3 + 1/2 - 2 * Real.pi ∧ 3 + 1/2 - 2 * Real.pi ≤ Real.pi) ∧
    (3 + 1/2 < -Real.pi →
      yawWrap (3 + 1/2) = 3 + 1/2 + 2 * Real.pi ∧
      -Real.pi < 3 + 1/2 + 2 * Real.pi ∧ 3 + 1/2 + 2 * Real.pi ≤ Real.pi) ∧
    (∀ (jp : Bool) (torb : Vec2) (st : PanOrbitState), torb ≠ 0 →
      (orbitStep jp torb st).yaw
        = yawWrap (st.yaw +
            (if (orbitStep jp torb st).upside_down then -torb.x else torb.x))) ∧
    (pan_orbit_camera inpC7 settingsC7 stC7 trC7).1.yaw = 3.5 - 2 * Real.pi :=
  C7_yaw_wrap 3 (1/2) (by linarith [Real.pi_pos]) (le_of_lt Real.pi_gt_three)
    (by rw [abs_of_pos (by norm_num : (0 : ℝ) < 1/2)]; linarith [Real.pi_gt_three])

/-! ## Claim C8: upside-down recomputation and pole flip -/

/-- C8: on every ungated tick with a nonzero orbit delta, the upside_down
flag is recomputed (as pitch < -pi/2 or pitch > pi/2, from the pre-delta
pitch) exactly when the orbit button was just pressed this tick and is left
unchanged otherwise; the horizontal orbit component is negated exactly when
the (recomputed) flag is set before being added to yaw; and pitch is plainly
incremented, never wrapped or clamped. -/
theorem C8_pole_flip (inp : CameraInput) (s : PanOrbitSettings)
    (st : PanOrbitState) (tr : Transform)
    (hg : ctxWantsPointer inp.ctx = false)
    (ht : tickOrbit inp s ≠ 0) :
    ((pan_orbit_camera inp s st tr).1.upside_down
        = (if justPressedOpt s.orbit_button inp.mouse then
            (if st.pitch < -(Real.pi/2) ∨ st.pitch > Real.pi/2 then true else false)
          else st.upside_down)) ∧
    (pan_orbit_camera inp s st tr).1.pitch = st.pitch + (tickOrbit inp s).y ∧
    (pan_orbit_camera inp s st tr).1.yaw
      = yawWrap (st.yaw + (if (pan_orbit_camera inp s st tr).1.upside_down
          then -(tickOrbit inp s).x else (tickOrbit inp s).x)) := by
  have key := pan_orbit_camera_fst inp s st tr hg
  rw [key]
  rw [panStep_upside_down, panStep_pitch, panStep_yaw]
  rw [orbitStep, if_neg ht]
  refine ⟨?_, ?_, ?_⟩
  · simp [zoomStep_pitch, zoomStep_upside_down]
  · simp [zoomStep_pitch]
  · simp [zoomStep_yaw, zoomStep_pitch, zoomStep_upside_down]

theorem C8_pole_flip_witness :
    ctxWantsPointer inpC8.ctx = false ∧ tickOrbit inpC8 settingsC8 ≠ 0 ∧
    (((pan_orbit_camera inpC8 settingsC8 stC8 trC8).1.upside_down
        = (if justPressedOpt settingsC8.orbit_button inpC8.mouse then
            (if stC8.pitch < -(Real.pi/2) ∨ stC8.pitch > Real.pi/2 then true else false)
          else stC8.upside_down)) ∧
     (pan_orbit_camera inpC8 settingsC8 stC8 trC8).1.pitch
        = stC8.pitch + (tickOrbit inpC8 settingsC8).y ∧
     (pan_orbit_camera inpC8 settingsC8 stC8 trC8).1.yaw
        = yawWrap (stC8.yaw +
            (if (pan_orbit_camera inpC8 settingsC8 stC8 trC8).1.upside_down
              then -(tickOrbit inpC8 settingsC8).x else (tickOrbit inpC8 settingsC8).x))) := by
  have ht : tickOrbit inpC8 settingsC8 ≠ 0 := by
    have heq : tickOrbit inpC8 settingsC8 = ⟨-1, 0⟩ := by
      simp only [tickOrbit, totalOrbitDelta, inpC8, settingsC8, pressedOpt,
        totalMotion, totalScroll, Vec2.scale, Vec2_neg_def, Vec2_add_def,
        Vec2_zero_def, List.foldl]
      norm_num
    rw [heq, Ne, Vec2_zero_def, Vec2.mk.injEq]
    norm_num
  exact ⟨rfl, ht, C8_pole_flip inpC8 settingsC8 stC8 trC8 rfl ht⟩

/-! ## Claim C9: reset determinism -/

lemma quatFromEulerYXZ_zero : quatFromEulerYXZ 0 0 0 = ⟨1, 0, 0, 0⟩ := by
  simp only [quatFromEulerYXZ, quatRotY, quatRotX, quatRotZ, Quat.mul,
    zero_div, Real.cos_zero, Real.sin_zero, Quat.mk.injEq]
  norm_num

lemma rotate_id (v : Vec3) : Quat.rotate ⟨1, 0, 0, 0⟩ v = v := by
  obtain ⟨a, b, c⟩ := v
  simp only [Quat.rotate, Vec3.cross, Vec3_add_def, Vec3_smul_def, Vec3.mk.injEq]
  norm_num

lemma publishTransform_default :
    publishTransform default_position = ⟨quatFromEulerYXZ 0 0 0, ⟨0, 0, 6⟩⟩ := by
  simp only [publishTransform, default_position]
  rw [Transform.mk.injEq]
  refine ⟨rfl, ?_⟩
  rw [quatFromEulerYXZ_zero, rotate_id]
  simp only [vZ, Vec3_add_def, Vec3_smul_def, Vec3.mk.injEq]
  norm_num

/-- C9: from any camera state (that is, after any sequence of pan, orbit and
zoom operations), both the R-key path (with keyboard focus free) and the UI
button path replace the whole orbit state with center (0,0,0), radius 6,
yaw 0, pitch 0, upside_down false, and immediately republish the transform
derived as yaw-then-pitch rotation with zero roll and translation
center + rotation * (0,0,radius), which for the defaults is the identity
rotation at position (0, 0, 6). -/
theorem C9_reset_determinism (ctx : Option EguiCtx) (st : PanOrbitState)
    (tr : Transform) (hk : ctxWantsKeyboard ctx = false) :
    reset_camera ctx true st tr = (default_position, publishTransform default_position) ∧
    ui_reset_button true st tr = (default_position, publishTransform default_position) ∧
    default_position
      = { center := ⟨0, 0, 0⟩, radius := 6, upside_down := false, pitch := 0, yaw := 0 } ∧
    publishTransform default_position = ⟨quatFromEulerYXZ 0 0 0, ⟨0, 0, 6⟩⟩ := by
  refine ⟨?_, ?_, rfl, publishTransform_default⟩
  · rw [reset_camera, if_neg (by simp [hk]), if_pos rfl]
  · rw [ui_reset_button, if_pos rfl]

theorem C9_reset_determinism_witness :
    ctxWantsKeyboard (none : Option EguiCtx) = false ∧
    (reset_camera none true stC9 trC9
        = (default_position, publishTransform default_position) ∧
    ui_reset_button true stC9 trC9
        = (default_position, publishTransform default_position) ∧
    default_position
      = { center := ⟨0, 0, 0⟩, radius := 6, upside_down := false, pitch := 0, yaw := 0 } ∧
    publishTransform default_position = ⟨quatFromEulerYXZ 0 0 0, ⟨0, 0, 6⟩⟩) :=
  ⟨rfl, C9_reset_determinism none stC9 trC9 rfl⟩

/-! ## Claim C10: radius stays positive -/

/-- C10: within a pan_orbit_camera tick the radius is either untouched or
multiplied by exp(-total_zoom.y), which is strictly positive, and no clamp
is ever applied; hence in exact real arithmetic a positive radius stays
positive across every tick, for every input. -/
theorem C10_radius_positive (inp : CameraInput) (s : PanOrbitSettings)
    (st : PanOrbitState) (tr : Transform) (h : 0 < st.radius) :
    0 < (pan_orbit_camera inp s st tr).1.radius ∧
    ((pan_orbit_camera inp s st tr).1.radius = st.radius ∨
     (pan_orbit_camera inp s st tr).1.radius
        = st.radius * Real.exp (-(tickZoom inp s).y)) := by
  by_cases hg : ctxWantsPointer inp.ctx = true
  · rw [pan_orbit_camera, if_pos (by simp [hg])]
    exact ⟨h, Or.inl rfl⟩
  · have hg' : ctxWantsPointer inp.ctx = false := by
      revert hg
      cases ctxWantsPointer inp.ctx <;> simp
    rw [pan_orbit_camera_fst inp s st tr hg', panStep_radius, orbitStep_radius]
    rw [zoomStep]
    split
    · exact ⟨h, Or.inl rfl⟩
    · exact ⟨mul_pos h (Real.exp_pos _), Or.inr rfl⟩

theorem C10_radius_positive_witness :
    0 < stC10.radius ∧
    (0 < (pan_orbit_camera inpC10 settingsC10 stC10 trC10).1.radius ∧
     ((pan_orbit_camera inpC10 settingsC10 stC10 trC10).1.radius = stC10.radius ∨
      (pan_orbit_camera inpC10 settingsC10 stC10 trC10).1.radius
        = stC10.radius * Real.exp (-(tickZoom inpC10 settingsC10).y))) :=
  ⟨by norm_num [stC10], C10_radius_positive inpC10 settingsC10 stC10 trC10
    (by norm_num [stC10])⟩

/-! ## Claim C2: change detection and regeneration -/

lemma regenFaces_spec (r : ℕ) (sph : Bool) :
    ∀ (l : List (ℕ × Vec3)) (a : MeshAssets),
      (regenFaces r sph l a).1.map Prod.fst = List.range' a.next_id l.length ∧
      (regenFaces r sph l a).1.map Prod.snd = l.map Prod.snd ∧
      (regenFaces r sph l a).2.next_id = a.next_id + l.length := by
  intro l
  induction l with
  | nil => intro a; simp [regenFaces]
  | cons f rest ih =>
    intro a
    obtain ⟨h1, h2, h3⟩ := ih (a.add (create_face_mesh r f.2 sph)).2
    refine ⟨?_, ?_, ?_⟩
    · rw [regenFaces]
      simp only [List.map_cons, List.length_cons, List.range'_succ]
      rw [h1]
      rfl
    · rw [regenFaces]
      simp only [List.map_cons]
      rw [h2]
    · rw [regenFaces]
      simp only [List.length_cons]
      rw [h3]
      rw [show (a.add (create_face_mesh r f.2 sph)).2.next_id = a.next_id + 1 from rfl]
      omega

/-- C2 counterexample: starting from a quiescent world whose six faces hold
mesh handles 0..5, a settings write changing only the color (resolution and
spherify identical) makes the next apply_planet_settings run regenerate all
six faces — they now hold the fresh handles 6..11 — because the system keys
on the coarse is_changed flag, which any ResMut write sets.  Writing the
same resolution and spherify a second time regenerates a second time
(handles 12..17), so the second application is not a geometry no-op. -/
theorem C2_counterexample :
    (s1C2.resolution = w0C2.settings.resolution ∧
     s1C2.spherify = w0C2.settings.spherify ∧
     s1C2.wireframe = w0C2.settings.wireframe ∧
     s1C2.color ≠ w0C2.settings.color) ∧
    w0C2.faces.map Prod.fst = [0, 1, 2, 3, 4, 5] ∧
    (apply_planet_settings (set_parameters w0C2 s1C2)).faces.map Prod.fst
      = [6, 7, 8, 9, 10, 11] ∧
    (apply_planet_settings (set_parameters
        (apply_planet_settings (set_parameters w0C2 s1C2)) s1C2)).faces.map Prod.fst
      = [12, 13, 14, 15, 16, 17] := by
  refine ⟨⟨rfl, rfl, rfl, ?_⟩, rfl, ?_, ?_⟩
  · rw [Ne, show s1C2.color = ⟨0, 0, 0, 1⟩ from rfl,
      show w0C2.settings.color = ⟨1/2, 1/2, 3/5, 1⟩ from rfl, Color.mk.injEq]
    norm_num
  · simp [apply_planet_settings, set_parameters, w0C2, s1C2, regenFaces,
      MeshAssets.add]
  · simp [apply_planet_settings, set_parameters, w0C2, s1C2, regenFaces,
      MeshAssets.add]

/-- C2 (amended): apply_planet_settings keys on Bevy's coarse change flag,
not on a comparison of resolution and spherify.  Whenever the settings
resource is marked changed — which every write marks, including writes that
alter only color or wireframe, and repeated writes of identical values — the
system regenerates all six face meshes, allocating a fresh consecutive mesh
handle per face (and also updates the wireframe toggle and material color);
when the flag is clear it regenerates nothing and leaves the world
untouched.  Consequently applying the same resolution and spherify twice
regenerates twice, and a color-only update does regenerate. -/
theorem C2_change_detection (w w2 : PlanetWorld) (s : PlanetSettings)
    (h : w.settings_changed = true) (h2 : w2.settings_changed = false) :
    (apply_planet_settings w).faces.map Prod.fst
      = List.range' w.meshes.next_id w.faces.length ∧
    (apply_planet_settings w).faces.map Prod.snd = w.faces.map Prod.snd ∧
    (apply_planet_settings w).wireframe_global = w.settings.wireframe ∧
    (apply_planet_settings w).material_color = w.settings.color ∧
    apply_planet_settings w2 = { w2 with settings_changed := false } ∧
    (set_parameters w s).settings_changed = true ∧
    (set_parameters w s).settings = s := by
  obtain ⟨h1, hsnd, hnext⟩ := regenFaces_spec w.settings.resolution
    w.settings.spherify w.faces w.meshes
  rw [apply_planet_settings, if_pos (by simp [h])]
  refine ⟨h1, hsnd, rfl, rfl, ?_, rfl, rfl⟩
  rw [apply_planet_settings, if_neg (by simp [h2])]

theorem C2_change_detection_witness :
    (set_parameters w0C2 s1C2).settings_changed = true ∧
    w0C2.settings_changed = false ∧
    ((apply_planet_settings (set_parameters w0C2 s1C2)).faces.map Prod.fst
      = List.range' (set_parameters w0C2 s1C2).meshes.next_id
          (set_parameters w0C2 s1C2).faces.length ∧
    (apply_planet_settings (set_parameters w0C2 s1C2)).faces.map Prod.snd
      = (set_parameters w0C2 s1C2).faces.map Prod.snd ∧
    (apply_planet_settings (set_parameters w0C2 s1C2)).wireframe_global
      = (set_parameters w0C2 s1C2).settings.wireframe ∧
    (apply_planet_settings (set_parameters w0C2 s1C2)).material_color
      = (set_parameters w0C2 s1C2).settings.color ∧
    apply_planet_settings w0C2 = { w0C2 with settings_changed := false } ∧
    (set_parameters (set_parameters w0C2 s1C2) s1C2).settings_changed = true ∧
    (set_parameters (set_parameters w0C2 s1C2) s1C2).settings = s1C2) :=
  ⟨rfl, rfl, C2_change_detection (set_parameters w0C2 s1C2) w0C2 s1C2 rfl rfl⟩
